import Mathlib

/-!
Verification of the fin-qdrant-rag Hybrid Memory Manager specification and of
the frontend utilities.

The memory subsystem (strategy evaluator, short-term store, long-term store,
facade) is documented in the repository's design documents but its executable
implementation is not among the provided source files, so the definitions in
the first part of this file are modelled from the specification text (each
such definition says so in its doc comment).  The definitions in the second
part (file-name sanitization, chat hook) are direct shallow embeddings of the
TypeScript sources `src/frontend/src/utils/fileUtils.ts` and
`src/frontend/src/hooks/useChat.ts`.
-/

namespace FinMemory

/-- Case-insensitive substring matching works on lists of characters.
`isPrefixList n h` is true when `n` is a prefix of `h`. -/
def isPrefixList : List Char → List Char → Bool
  | [], _ => true
  | _ :: _, [] => false
  | a :: n, b :: h => a == b && isPrefixList n h

/-- `containsSub n h` is true when `n` occurs as a contiguous substring of `h`. -/
def containsSub (n : List Char) : List Char → Bool
  | [] => isPrefixList n []
  | b :: h => isPrefixList n (b :: h) || containsSub n h

/-- Lowercasing used before all keyword matching (the spec: "All text matching
is case-insensitive"). -/
def lowerStr (s : String) : String := String.mk (s.toList.map Char.toLower)

/-- `strContains hay needle`: case-insensitive substring test on strings. -/
def strContains (hay needle : String) : Bool :=
  containsSub (lowerStr needle).toList (lowerStr hay).toList

/-- Number of distinct keywords from `kws` that occur in `content`. -/
def matchCount (kws : List String) (content : String) : Nat :=
  (kws.filter (fun k => strContains content k)).length

/-- True when at least one keyword from `kws` occurs in `content`. -/
def anyMatch (kws : List String) (content : String) : Bool :=
  kws.any (fun k => strContains content k)

/-- Modelled from the spec: interaction metadata is a `map<string,any>`; the
scoring rules only consult three explicit flags (importance, insight, risk),
so the model keeps exactly those. -/
structure Metadata where
  importance_flag : Bool
  insight_flag : Bool
  risk_flag : Bool
deriving DecidableEq, Repr

/-- Metadata with no flags set. -/
def Metadata.empty : Metadata := ⟨false, false, false⟩

/-- The three registered strategies of the strategy set. -/
inductive StrategyName where
  | conversation
  | insight
  | risk
deriving DecidableEq, Repr

/-- Financial-domain vocabulary of the conversation strategy. -/
def financialKeywords : List String :=
  ["stock", "trading", "investment", "portfolio", "analysis", "strategy",
   "risk", "market"]

/-- Insight vocabulary of the conversation strategy. -/
def insightKeywords : List String :=
  ["learned", "discovered", "found", "realized", "understood", "important"]

/-- First-person preference/goal patterns of the insight strategy. -/
def insightPatterns : List String :=
  ["i prefer", "i like", "i want", "my goal", "my strategy", "i learned"]

/-- The preference patterns among `insightPatterns`. -/
def preferencePatterns : List String := ["i prefer", "i like", "i want"]

/-- The learning patterns among `insightPatterns`. -/
def learningPatterns : List String := ["i learned"]

/-- Risk/warning vocabulary of the risk strategy. -/
def riskKeywords : List String :=
  ["risk", "danger", "warning", "caution", "loss", "volatile", "avoid",
   "problem"]

/-- Warning/caution terms of the risk strategy. -/
def warningTerms : List String := ["warning", "caution"]

/-- Modelled from the spec: conversation strategy score =
0.2 per distinct financial keyword (cap 0.6) + 0.15 per insight keyword
(cap 0.3) + 0.2 if metadata explicitly flags importance + 0.1 if content
length exceeds 200 characters, final score clamped to 1.0. -/
def conversationScore (content : String) (meta : Metadata) : ℚ :=
  min
    (min ((1/5) * (matchCount financialKeywords content : ℚ)) (3/5)
      + min ((3/20) * (matchCount insightKeywords content : ℚ)) (3/10)
      + (if meta.importance_flag then 1/5 else 0)
      + (if 200 < content.length then 1/10 else 0))
    1

/-- Modelled from the spec: insight strategy score = 0.3 per distinct pattern
match (cap 0.7) + 0.2 if a preference pattern present + 0.2 if a learning
pattern present + 0.3 if metadata carries an explicit insight flag, final
score clamped to 1.0. -/
def insightScore (content : String) (meta : Metadata) : ℚ :=
  min
    (min ((3/10) * (matchCount insightPatterns content : ℚ)) (7/10)
      + (if anyMatch preferencePatterns content then 1/5 else 0)
      + (if anyMatch learningPatterns content then 1/5 else 0)
      + (if meta.insight_flag then 3/10 else 0))
    1

/-- Modelled from the spec: risk strategy score = 0.25 per keyword (cap 0.6)
+ 0.3 if warning/caution terms present + 0.4 if metadata carries an explicit
risk flag, final score clamped to 1.0. -/
def riskScore (content : String) (meta : Metadata) : ℚ :=
  min
    (min ((1/4) * (matchCount riskKeywords content : ℚ)) (3/5)
      + (if anyMatch warningTerms content then 3/10 else 0)
      + (if meta.risk_flag then 2/5 else 0))
    1

/-- Score of one named strategy. -/
def strategyScore : StrategyName → String → Metadata → ℚ
  | .conversation, c, m => conversationScore c m
  | .insight, c, m => insightScore c m
  | .risk, c, m => riskScore c m

/-- Modelled from the spec: the storage threshold 0.5 is a configured
constant exposed as a tunable. -/
def storeThreshold : ℚ := 1/2

/-- Modelled from the spec: transient result of the strategy evaluator. -/
structure EvaluationResult where
  per_strategy_scores : List (StrategyName × ℚ)
  best_strategy : StrategyName
  overall_importance : ℚ
  should_store_long_term : Bool
deriving DecidableEq, Repr

/-- Select the pair with the maximum score, keeping the earlier strategy on
ties (a later strategy replaces the current best only when strictly
greater). -/
def pickBest (hd : StrategyName × ℚ) (tl : List (StrategyName × ℚ)) :
    StrategyName × ℚ :=
  tl.foldl (fun acc p => if acc.2 < p.2 then p else acc) hd

/-- Modelled from the spec: the strategy evaluator runs every registered
strategy on the same content, collects each score, selects the strategy with
the maximum score as `best_strategy`, sets `overall_importance` to that
maximum and `should_store_long_term` to `overall_importance > threshold`.
Pure: no store is consulted or changed. -/
def evaluate (content : String) (meta : Metadata) : EvaluationResult :=
  let sc := conversationScore content meta
  let si := insightScore content meta
  let sr := riskScore content meta
  let best := pickBest (.conversation, sc) [(.insight, si), (.risk, sr)]
  { per_strategy_scores := [(.conversation, sc), (.insight, si), (.risk, sr)]
    best_strategy := best.1
    overall_importance := best.2
    should_store_long_term := decide (storeThreshold < best.2) }

/-- Modelled from the spec: one interaction — the unit of storage
decisions. -/
structure Interaction where
  user_id : String
  user_message : String
  assistant_response : String
  timestamp : Nat
  metadata : Metadata
deriving DecidableEq, Repr

/-- Modelled from the spec: the durable form of an interaction selected for
long-term storage.  `source_metadata` keeps the original interaction metadata
and `evaluation` the full evaluation trace. -/
structure MemoryRecord where
  id : Nat
  content : String
  embedding : List ℚ
  user_id : String
  memory_type : StrategyName
  timestamp : Nat
  importance_score : ℚ
  source_metadata : Metadata
  evaluation : EvaluationResult
deriving DecidableEq, Repr

/-- Modelled from the spec: the short-term store keeps, per user, a
time-ordered buffer of recent interactions, most recent first. -/
abbrev STStore := List (String × List Interaction)

/-- The per-user sequence held by the short-term store (empty for unknown
users). -/
def stLookup : STStore → String → List Interaction
  | [], _ => []
  | (u, l) :: t, uid => if u = uid then l else stLookup t uid

/-- Replace (or create) the sequence held for one user. -/
def stUpdate : STStore → String → List Interaction → STStore
  | [], uid, l => [(uid, l)]
  | (u, l0) :: t, uid, l =>
      if u = uid then (u, l) :: t else (u, l0) :: stUpdate t uid l

/-- Modelled from the spec: `append` inserts at the head of the user's
sequence and enforces the per-user window of `cap` entries (drop oldest
beyond the cap). -/
def stAppend (cap : Nat) (s : STStore) (uid : String) (i : Interaction) :
    STStore :=
  stUpdate s uid ((i :: stLookup s uid).take cap)

/-- Modelled from the spec: `recent(user_id, limit)` returns the user's
interactions most recent first, truncated to `limit`; the empty sequence
(not an error) for unknown users. -/
def stRecent (s : STStore) (uid : String) (limit : Nat) : List Interaction :=
  (stLookup s uid).take limit

/-- Insert a record into a list sorted by descending importance. -/
def insertByImportance (r : MemoryRecord) :
    List MemoryRecord → List MemoryRecord
  | [] => [r]
  | x :: t =>
      if x.importance_score < r.importance_score then r :: x :: t
      else x :: insertByImportance r t

/-- Sort records by descending importance score. -/
def sortByImportance (l : List MemoryRecord) : List MemoryRecord :=
  l.foldr insertByImportance []

/-- Modelled from the spec: `by_user(user_id, limit)` — the user's records
ordered by importance score descending, truncated to `limit`. -/
def byUser (lt : List MemoryRecord) (uid : String) (limit : Nat) :
    List MemoryRecord :=
  (sortByImportance (lt.filter (fun r => r.user_id == uid))).take limit

/-- Modelled from the spec: the whole mutable state of the system — the two
stores plus the caller-generated unique-id counter for new records. -/
structure SysState where
  shortTerm : STStore
  longTerm : List MemoryRecord
  nextId : Nat

/-- The system state with both stores empty. -/
def SysState.empty : SysState := ⟨[], [], 0⟩

/-- The combined content the facade evaluates and embeds. -/
def combineContent (msg resp : String) : String :=
  "User: " ++ msg ++ "\nAssistant: " ++ resp

/-- Modelled from the spec: evaluation as performed inside the facade —
pure, so it returns the state it was given untouched. -/
def evaluateInState (s : SysState) (content : String) (meta : Metadata) :
    EvaluationResult × SysState :=
  (evaluate content meta, s)

/-- Build the MemoryRecord the facade writes after a positive storage
decision: `memory_type` is the best strategy and `importance_score` the
overall importance. -/
def mkRecord (id : Nat) (content : String) (v : List ℚ) (uid : String)
    (ts : Nat) (meta : Metadata) (ev : EvaluationResult) : MemoryRecord :=
  { id := id, content := content, embedding := v, user_id := uid
    memory_type := ev.best_strategy, timestamp := ts
    importance_score := ev.overall_importance
    source_metadata := meta, evaluation := ev }

/-- Modelled from the spec: `record_turn` builds an Interaction, appends it
to the short-term store unconditionally, evaluates the combined content and
— only when `should_store_long_term`, the embedding succeeds (`embed`
returns `some`) and the long-term store is reachable (`ltOk`) — writes
exactly one new MemoryRecord.  Embedding or long-term failures never fail
the call: the short-term append stands and the long-term write is
skipped. -/
def record_turn (cap : Nat) (embed : String → Option (List ℚ)) (ltOk : Bool)
    (s : SysState) (uid msg resp : String) (ts : Nat) (meta : Metadata) :
    SysState :=
  let i : Interaction := ⟨uid, msg, resp, ts, meta⟩
  let s1 : SysState := { s with shortTerm := stAppend cap s.shortTerm uid i }
  let content := combineContent msg resp
  let (ev, s2) := evaluateInState s1 content meta
  if ev.should_store_long_term then
    match embed content with
    | none => s2
    | some v =>
        if ltOk then
          { s2 with
            longTerm := mkRecord s2.nextId content v uid ts meta ev :: s2.longTerm
            nextId := s2.nextId + 1 }
        else s2
  else s2

/-- Modelled from the spec: the context bundle keeps three labeled sections
rather than one merged ranking. -/
structure ContextBundle where
  recent_conversation : List Interaction
  important_memories : List MemoryRecord
  related_memories : List MemoryRecord
deriving DecidableEq, Repr

/-- Modelled from the spec: `context_for` assembles (1) the last 5
short-term interactions, (2) the top 3 long-term records by importance,
(3) when a recent short-term message exists and embeds successfully, a
similarity search seeded by it (a provided capability, hence the `simSearch`
parameter), restricted to the user, excluding ids already in section 2,
top 2.  When the long-term store is unreachable it returns partial results
(short-term only) instead of failing. -/
def context_for (embed : String → Option (List ℚ))
    (simSearch : List MemoryRecord → List ℚ → String → Nat → List MemoryRecord)
    (ltOk : Bool) (s : SysState) (uid : String) : ContextBundle :=
  let st := stRecent s.shortTerm uid 5
  if ltOk then
    let lt := byUser s.longTerm uid 3
    let rel :=
      match st.head? with
      | none => []
      | some i =>
          match embed i.user_message with
          | none => []
          | some v =>
              ((simSearch s.longTerm v uid 2).filter
                (fun r => !(lt.any (fun x => x.id == r.id)))).take 2
    ⟨st, lt, rel⟩
  else ⟨st, [], []⟩

/-- Append a whole list of interactions for one user, oldest first. -/
def appendMany (cap : Nat) (s : STStore) (uid : String)
    (l : List Interaction) : STStore :=
  l.foldl (fun st i => stAppend cap st uid i) s

end FinMemory

namespace FinFrontend

/-- The characters removed by JavaScript's `String.prototype.trim`: the
ECMAScript WhiteSpace production (TAB, VT, FF, SP, NBSP, ZWNBSP and the
Unicode Zs space separators U+1680, U+2000\u2013U+200A, U+202F, U+205F, U+3000)
together with the LineTerminator production (LF, CR, LS U+2028,
PS U+2029). -/
def isJsWhitespace (c : Char) : Bool :=
  c = ' ' || c = '\t' || c = '\n' || c = '\r' || c = '\x0b' || c = '\x0c'
    || c = '\u00a0' || c = '\u1680'
    || ('\u2000' ≤ c && c ≤ '\u200a')
    || c = '\u2028' || c = '\u2029' || c = '\u202f' || c = '\u205f'
    || c = '\u3000' || c = '\ufeff'

/-- JavaScript `name.trim()`: strip leading and trailing whitespace. -/
def jsTrim (name : String) : String :=
  String.mk
    (((name.toList.dropWhile isJsWhitespace).reverse.dropWhile
        isJsWhitespace).reverse)

/-- Membership in the regex character class `[a-zA-Z0-9.-]` of
`sanitizeFileName`. -/
def isAllowedChar (c : Char) : Bool :=
  ('a' ≤ c && c ≤ 'z') || ('A' ≤ c && c ≤ 'Z') || ('0' ≤ c && c ≤ '9')
    || c = '.' || c = '-'

/-- Embedding of `fileUtils.sanitizeFileName`:
`if (!name || name.trim() === "") return "-";
 return name.replace(/[^a-zA-Z0-9.-]/g, "_");` -/
def sanitizeFileName (name : String) : String :=
  if name = "" ∨ jsTrim name = "" then "-"
  else String.mk (name.toList.map (fun c => if isAllowedChar c then c else '_'))

/-- Who authored a chat message. -/
inductive Sender where
  | user
  | assistant
deriving DecidableEq, Repr

/-- The fields of the frontend `Message` objects that `sendMessage`
constructs (`type` is always `"text"` and `timestamp` is the wall clock,
both omitted). -/
structure Msg where
  id : String
  content : String
  sender : Sender
deriving DecidableEq, Repr

/-- Outcome of the `fetch("http://localhost:8000/chat", ...)` call:
the request throws, the response has a non-ok status, or it succeeds with a
parsed body whose `bot_response` field is `bot` (`none` when the body or the
field is absent/null). -/
inductive FetchOutcome where
  | networkError
  | httpError
  | success (bot : Option String)
deriving DecidableEq, Repr

/-- Embedding of `useChat.sendMessage`: the user message (id
`Date.now().toString()`) is appended to the list first; an assistant message
(id `(Date.now() + 2).toString()`) is appended only when the response is ok
and `data && data.bot_response` is truthy (in particular `bot_response` must
be a non-empty string). -/
def sendMessage (now : Nat) (prev : List Msg) (message : String)
    (outcome : FetchOutcome) : List Msg :=
  let userMessage : Msg := ⟨toString now, message, .user⟩
  let afterUser := prev ++ [userMessage]
  match outcome with
  | .success (some s) =>
      if s = "" then afterUser
      else afterUser ++ [⟨toString (now + 2), s, .assistant⟩]
  | _ => afterUser

end FinFrontend

namespace FinMemory

lemma evaluate_scores (c : String) (m : Metadata) :
    (evaluate c m).per_strategy_scores
      = [(.conversation, conversationScore c m), (.insight, insightScore c m),
         (.risk, riskScore c m)] := rfl

lemma evaluate_overall (c : String) (m : Metadata) :
    (evaluate c m).overall_importance
      = (pickBest (.conversation, conversationScore c m)
          [(.insight, insightScore c m), (.risk, riskScore c m)]).2 := rfl

lemma evaluate_best (c : String) (m : Metadata) :
    (evaluate c m).best_strategy
      = (pickBest (.conversation, conversationScore c m)
          [(.insight, insightScore c m), (.risk, riskScore c m)]).1 := rfl

lemma evaluate_store (c : String) (m : Metadata) :
    (evaluate c m).should_store_long_term
      = decide (storeThreshold < (evaluate c m).overall_importance) := rfl

lemma pickBest3 (a b c : ℚ) :
    (pickBest (StrategyName.conversation, a)
        [(StrategyName.insight, b), (StrategyName.risk, c)]
      ∈ [(StrategyName.conversation, a), (StrategyName.insight, b),
         (StrategyName.risk, c)])
    ∧ a ≤ (pickBest (StrategyName.conversation, a)
        [(StrategyName.insight, b), (StrategyName.risk, c)]).2
    ∧ b ≤ (pickBest (StrategyName.conversation, a)
        [(StrategyName.insight, b), (StrategyName.risk, c)]).2
    ∧ c ≤ (pickBest (StrategyName.conversation, a)
        [(StrategyName.insight, b), (StrategyName.risk, c)]).2 := by
  simp only [pickBest, List.foldl_cons, List.foldl_nil]
  by_cases h1 : a < b
  · simp only [if_pos h1]
    by_cases h2 : b < c
    · simp only [if_pos h2]
      exact ⟨by simp, by linarith, by linarith, le_refl _⟩
    · simp only [if_neg h2]
      exact ⟨by simp, le_of_lt h1, le_refl _, le_of_not_lt h2⟩
  · simp only [if_neg h1]
    by_cases h2 : a < c
    · simp only [if_pos h2]
      exact ⟨by simp, by linarith, by linarith, le_refl _⟩
    · simp only [if_neg h2]
      exact ⟨by simp, le_refl _, le_of_not_lt h1, le_of_not_lt h2⟩

lemma conversationScore_bounds (c : String) (m : Metadata) :
    0 ≤ conversationScore c m ∧ conversationScore c m ≤ 1 := by
  have h1 : (0:ℚ) ≤ min ((1/5) * (matchCount financialKeywords c : ℚ)) (3/5) :=
    le_min (by positivity) (by norm_num)
  have h2 : (0:ℚ) ≤ min ((3/20) * (matchCount insightKeywords c : ℚ)) (3/10) :=
    le_min (by positivity) (by norm_num)
  have h3 : (0:ℚ) ≤ (if m.importance_flag then (1:ℚ)/5 else 0) := by
    split <;> norm_num
  have h4 : (0:ℚ) ≤ (if 200 < c.length then (1:ℚ)/10 else 0) := by
    split <;> norm_num
  unfold conversationScore
  exact ⟨le_min (by linarith) (by norm_num), min_le_right _ _⟩

lemma insightScore_bounds (c : String) (m : Metadata) :
    0 ≤ insightScore c m ∧ insightScore c m ≤ 1 := by
  have h1 : (0:ℚ) ≤ min ((3/10) * (matchCount insightPatterns c : ℚ)) (7/10) :=
    le_min (by positivity) (by norm_num)
  have h2 : (0:ℚ) ≤ (if anyMatch preferencePatterns c then (1:ℚ)/5 else 0) := by
    split <;> norm_num
  have h3 : (0:ℚ) ≤ (if anyMatch learningPatterns c then (1:ℚ)/5 else 0) := by
    split <;> norm_num
  have h4 : (0:ℚ) ≤ (if m.insight_flag then (3:ℚ)/10 else 0) := by
    split <;> norm_num
  unfold insightScore
  exact ⟨le_min (by linarith) (by norm_num), min_le_right _ _⟩

lemma riskScore_bounds (c : String) (m : Metadata) :
    0 ≤ riskScore c m ∧ riskScore c m ≤ 1 := by
  have h1 : (0:ℚ) ≤ min ((1/4) * (matchCount riskKeywords c : ℚ)) (3/5) :=
    le_min (by positivity) (by norm_num)
  have h2 : (0:ℚ) ≤ (if anyMatch warningTerms c then (3:ℚ)/10 else 0) := by
    split <;> norm_num
  have h3 : (0:ℚ) ≤ (if m.risk_flag then (2:ℚ)/5 else 0) := by
    split <;> norm_num
  unfold riskScore
  exact ⟨le_min (by linarith) (by norm_num), min_le_right _ _⟩

lemma strategyScore_bounds (n : StrategyName) (c : String) (m : Metadata) :
    0 ≤ strategyScore n c m ∧ strategyScore n c m ≤ 1 := by
  cases n with
  | conversation => exact conversationScore_bounds c m
  | insight => exact insightScore_bounds c m
  | risk => exact riskScore_bounds c m

lemma evaluate_overall_bounds (c : String) (m : Metadata) :
    0 ≤ (evaluate c m).overall_importance
      ∧ (evaluate c m).overall_importance ≤ 1 := by
  obtain ⟨hmem, -⟩ := pickBest3 (conversationScore c m) (insightScore c m)
    (riskScore c m)
  rw [evaluate_overall]
  simp only [List.mem_cons, List.not_mem_nil, or_false] at hmem
  rcases hmem with h | h | h <;> rw [h]
  · exact conversationScore_bounds c m
  · exact insightScore_bounds c m
  · exact riskScore_bounds c m

lemma stLookup_stUpdate (s : STStore) (uid : String) (l : List Interaction) :
    stLookup (stUpdate s uid l) uid = l := by
  induction s with
  | nil => simp [stUpdate, stLookup]
  | cons p t ih =>
      obtain ⟨u, l0⟩ := p
      by_cases h : u = uid
      · simp [stUpdate, stLookup, h]
      · simp [stUpdate, stLookup, h, ih]

lemma stLookup_stAppend (cap : Nat) (s : STStore) (uid : String)
    (i : Interaction) :
    stLookup (stAppend cap s uid i) uid = (i :: stLookup s uid).take cap := by
  unfold stAppend
  exact stLookup_stUpdate ..

lemma stLookup_eq_nil_of_unknown (s : STStore) (uid : String)
    (h : ∀ p ∈ s, p.1 ≠ uid) : stLookup s uid = [] := by
  induction s with
  | nil => rfl
  | cons p t ih =>
      obtain ⟨u, l0⟩ := p
      have hu : u ≠ uid := h (u, l0) (List.mem_cons_self _ _)
      simp only [stLookup, if_neg hu]
      exact ih (fun q hq => h q (List.mem_cons_of_mem _ hq))

lemma take_append_take (n : Nat) (a b : List Interaction) :
    (a ++ b.take n).take n = (a ++ b).take n := by
  rw [List.take_append_eq_append_take, List.take_append_eq_append_take,
    List.take_take, min_eq_left (Nat.sub_le n a.length)]

lemma appendMany_cons (cap : Nat) (s : STStore) (uid : String)
    (i : Interaction) (t : List Interaction) :
    appendMany cap s uid (i :: t) = appendMany cap (stAppend cap s uid i) uid t := rfl

lemma appendMany_lookup (cap : Nat) (uid : String) (l : List Interaction) :
    ∀ s : STStore, (stLookup s uid).length ≤ cap →
      stLookup (appendMany cap s uid l) uid
        = (l.reverse ++ stLookup s uid).take cap := by
  induction l with
  | nil =>
      intro s hs
      simp only [appendMany, List.foldl_nil, List.reverse_nil, List.nil_append]
      exact (List.take_of_length_le hs).symm
  | cons i t ih =>
      intro s hs
      rw [appendMany_cons]
      have hstep : stLookup (stAppend cap s uid i) uid
          = (i :: stLookup s uid).take cap := stLookup_stAppend ..
      have hlen : (stLookup (stAppend cap s uid i) uid).length ≤ cap := by
        rw [hstep, List.length_take]
        exact min_le_left ..
      rw [ih (stAppend cap s uid i) hlen, hstep, take_append_take,
        List.reverse_cons, List.append_assoc, List.singleton_append]

lemma record_turn_shortTerm (cap : Nat) (embed : String → Option (List ℚ))
    (ltOk : Bool) (s : SysState) (uid msg resp : String) (ts : Nat)
    (meta : Metadata) :
    (record_turn cap embed ltOk s uid msg resp ts meta).shortTerm
      = stAppend cap s.shortTerm uid ⟨uid, msg, resp, ts, meta⟩ := by
  unfold record_turn evaluateInState
  dsimp only
  split
  · split
    · rfl
    · split <;> rfl
  · rfl

lemma record_turn_longTerm_not_store (cap : Nat)
    (embed : String → Option (List ℚ)) (ltOk : Bool) (s : SysState)
    (uid msg resp : String) (ts : Nat) (meta : Metadata)
    (h : (evaluate (combineContent msg resp) meta).should_store_long_term
        = false) :
    (record_turn cap embed ltOk s uid msg resp ts meta).longTerm
      = s.longTerm := by
  unfold record_turn evaluateInState
  dsimp only
  rw [h]
  simp

lemma record_turn_longTerm_store (cap : Nat)
    (embed : String → Option (List ℚ)) (s : SysState)
    (uid msg resp : String) (ts : Nat) (meta : Metadata) (v : List ℚ)
    (h : (evaluate (combineContent msg resp) meta).should_store_long_term
        = true)
    (hv : embed (combineContent msg resp) = some v) :
    (record_turn cap embed true s uid msg resp ts meta).longTerm
      = mkRecord s.nextId (combineContent msg resp) v uid ts meta
          (evaluate (combineContent msg resp) meta) :: s.longTerm := by
  unfold record_turn evaluateInState
  dsimp only
  rw [h, hv]
  simp

lemma record_turn_longTerm_no_embed (cap : Nat)
    (embed : String → Option (List ℚ)) (ltOk : Bool) (s : SysState)
    (uid msg resp : String) (ts : Nat) (meta : Metadata)
    (hv : embed (combineContent msg resp) = none) :
    (record_turn cap embed ltOk s uid msg resp ts meta).longTerm
      = s.longTerm := by
  unfold record_turn evaluateInState
  dsimp only
  split
  · rw [hv]
  · rfl

/-- Constant embedding provider used in concrete instantiations. -/
def constEmbed : String → Option (List ℚ) := fun _ => some [1]

/-- Always-failing embedding provider. -/
def failEmbed : String → Option (List ℚ) := fun _ => none

/-- Trivial similarity-search capability used in concrete instantiations. -/
def noSim : List MemoryRecord → List ℚ → String → Nat → List MemoryRecord :=
  fun _ _ _ _ => []

/-- Sample content rich in first-person insight patterns: its insight
components sum to 1.1 before the final clamp. -/
def sampleInsightMsg : String :=
  "i prefer etf and my goal is growth; i learned patience"

/-- Simple numbered interaction for window tests. -/
def mkI (n : Nat) : Interaction := ⟨"u", toString n, "", n, Metadata.empty⟩

lemma record_turn_longTerm_no_lt (cap : Nat)
    (embed : String → Option (List ℚ)) (s : SysState)
    (uid msg resp : String) (ts : Nat) (meta : Metadata) :
    (record_turn cap embed false s uid msg resp ts meta).longTerm
      = s.longTerm := by
  unfold record_turn evaluateInState
  dsimp only
  split
  · split
    · rfl
    · rfl
  · rfl

lemma conversationScore_sample :
    conversationScore (combineContent sampleInsightMsg "") Metadata.empty
      = 3/20 := by
  have h1 : matchCount financialKeywords (combineContent sampleInsightMsg "")
      = 0 := by decide
  have h2 : matchCount insightKeywords (combineContent sampleInsightMsg "")
      = 1 := by decide
  have h3 : ¬ (200 < (combineContent sampleInsightMsg "").length) := by decide
  unfold conversationScore
  rw [h1, h2]
  norm_num [Metadata.empty, h3, min_def]

lemma insightScore_sample :
    insightScore (combineContent sampleInsightMsg "") Metadata.empty = 1 := by
  have h1 : matchCount insightPatterns (combineContent sampleInsightMsg "")
      = 3 := by decide
  have h2 : anyMatch preferencePatterns (combineContent sampleInsightMsg "")
      = true := by decide
  have h3 : anyMatch learningPatterns (combineContent sampleInsightMsg "")
      = true := by decide
  unfold insightScore
  rw [h1, h2, h3]
  norm_num [Metadata.empty, min_def]

lemma riskScore_sample :
    riskScore (combineContent sampleInsightMsg "") Metadata.empty = 0 := by
  have h1 : matchCount riskKeywords (combineContent sampleInsightMsg "")
      = 0 := by decide
  have h2 : anyMatch warningTerms (combineContent sampleInsightMsg "")
      = false := by decide
  unfold riskScore
  rw [h1, h2]
  norm_num [Metadata.empty, min_def]

lemma pickBest_sample :
    pickBest
      (.conversation,
        conversationScore (combineContent sampleInsightMsg "") Metadata.empty)
      [(.insight, insightScore (combineContent sampleInsightMsg "") Metadata.empty),
       (.risk, riskScore (combineContent sampleInsightMsg "") Metadata.empty)]
      = (.insight, 1) := by
  rw [conversationScore_sample, insightScore_sample, riskScore_sample]
  simp only [pickBest, List.foldl_cons, List.foldl_nil]
  rw [if_pos (by norm_num : ((StrategyName.conversation, (3:ℚ)/20)).2
    < ((StrategyName.insight, (1:ℚ))).2)]
  rw [if_neg (by norm_num : ¬ ((StrategyName.insight, (1:ℚ))).2
    < ((StrategyName.risk, (0:ℚ))).2)]

lemma evaluate_sample_overall :
    (evaluate (combineContent sampleInsightMsg "") Metadata.empty).overall_importance
      = 1 := by
  rw [evaluate_overall, pickBest_sample]

lemma evaluate_sample_store :
    (evaluate (combineContent sampleInsightMsg "") Metadata.empty).should_store_long_term
      = true := by
  rw [evaluate_store, evaluate_sample_overall]
  simp [storeThreshold]
  norm_num

/-- C2: the strategy evaluator's result satisfies: every per-strategy score
is at most `overall_importance`, the pair `(best_strategy,
overall_importance)` is itself among the per-strategy scores (so the maximum
is attained by the selected strategy), and `should_store_long_term` holds
exactly when `overall_importance` is strictly greater than 0.5. -/
theorem c2_evaluator_max_decision (content : String) (meta : Metadata) :
    (∀ p ∈ (evaluate content meta).per_strategy_scores,
        p.2 ≤ (evaluate content meta).overall_importance)
    ∧ ((evaluate content meta).best_strategy,
        (evaluate content meta).overall_importance)
        ∈ (evaluate content meta).per_strategy_scores
    ∧ ((evaluate content meta).should_store_long_term = true
        ↔ 1/2 < (evaluate content meta).overall_importance) := by
  obtain ⟨hmem, ha, hb, hc⟩ := pickBest3 (conversationScore content meta)
    (insightScore content meta) (riskScore content meta)
  refine ⟨?_, ?_, ?_⟩
  · intro p hp
    rw [evaluate_scores] at hp
    rw [evaluate_overall]
    simp only [List.mem_cons, List.not_mem_nil, or_false] at hp
    rcases hp with h | h | h <;> rw [h]
    · exact ha
    · exact hb
    · exact hc
  · rw [evaluate_scores, evaluate_best, evaluate_overall]
    exact hmem
  · rw [evaluate_store]
    simp [storeThreshold]

/-- C2 witness: concrete instantiation at the spec's example content
"ok thanks" with empty metadata, for the conversation strategy's entry. -/
theorem c2_evaluator_max_decision_witness :
    ((StrategyName.conversation, conversationScore "ok thanks" Metadata.empty)
        ∈ (evaluate "ok thanks" Metadata.empty).per_strategy_scores)
    ∧ conversationScore "ok thanks" Metadata.empty
        ≤ (evaluate "ok thanks" Metadata.empty).overall_importance :=
  ⟨by rw [evaluate_scores]; exact List.mem_cons_self _ _,
    (c2_evaluator_max_decision "ok thanks" Metadata.empty).1
      (StrategyName.conversation, conversationScore "ok thanks" Metadata.empty)
      (by rw [evaluate_scores]; exact List.mem_cons_self _ _)⟩

/-- C6: the strategy evaluator is pure and deterministic: its result does not
depend on the store state it runs against, it returns the state unchanged,
and two calls on identical `(content, metadata)` agree on every field of the
EvaluationResult. -/
theorem c6_evaluator_pure_deterministic (s1 s2 : SysState) (content : String)
    (meta : Metadata) :
    (evaluateInState s1 content meta).1 = (evaluateInState s2 content meta).1
    ∧ (evaluateInState s1 content meta).2 = s1
    ∧ (evaluateInState s1 content meta).1.per_strategy_scores
        = (evaluateInState s2 content meta).1.per_strategy_scores
    ∧ (evaluateInState s1 content meta).1.best_strategy
        = (evaluateInState s2 content meta).1.best_strategy
    ∧ (evaluateInState s1 content meta).1.overall_importance
        = (evaluateInState s2 content meta).1.overall_importance
    ∧ (evaluateInState s1 content meta).1.should_store_long_term
        = (evaluateInState s2 content meta).1.should_store_long_term :=
  ⟨rfl, rfl, rfl, rfl, rfl, rfl⟩

/-- C3: every strategy's final score lies in [0,1] (the final clamp makes
this hold even when the components sum over 1), hence the evaluator's
overall importance lies in [0,1], and every MemoryRecord newly stored by
`record_turn` has `importance_score` in [0,1]. -/
theorem c3_scores_in_unit_interval :
    (∀ (n : StrategyName) (c : String) (m : Metadata),
        0 ≤ strategyScore n c m ∧ strategyScore n c m ≤ 1)
    ∧ (∀ (c : String) (m : Metadata),
        0 ≤ (evaluate c m).overall_importance
          ∧ (evaluate c m).overall_importance ≤ 1)
    ∧ (∀ (cap : Nat) (embed : String → Option (List ℚ)) (ltOk : Bool)
        (s : SysState) (uid msg resp : String) (ts : Nat) (meta : Metadata)
        (r : MemoryRecord),
        r ∈ (record_turn cap embed ltOk s uid msg resp ts meta).longTerm →
        r ∈ s.longTerm
          ∨ (0 ≤ r.importance_score ∧ r.importance_score ≤ 1)) := by
  refine ⟨strategyScore_bounds, evaluate_overall_bounds, ?_⟩
  intro cap embed ltOk s uid msg resp ts meta r hr
  cases hss : (evaluate (combineContent msg resp) meta).should_store_long_term with
  | false =>
      rw [record_turn_longTerm_not_store cap embed ltOk s uid msg resp ts
        meta hss] at hr
      exact Or.inl hr
  | true =>
      cases hv : embed (combineContent msg resp) with
      | none =>
          rw [record_turn_longTerm_no_embed cap embed ltOk s uid msg resp ts
            meta hv] at hr
          exact Or.inl hr
      | some v =>
          cases ltOk with
          | false =>
              rw [record_turn_longTerm_no_lt cap embed s uid msg resp ts
                meta] at hr
              exact Or.inl hr
          | true =>
              rw [record_turn_longTerm_store cap embed s uid msg resp ts
                meta v hss hv] at hr
              rcases List.mem_cons.mp hr with h | h
              · right
                rw [h]
                exact evaluate_overall_bounds _ _
              · exact Or.inl h

/-- The system state after recording one insight-heavy turn. -/
def c3State : SysState :=
  record_turn 5 constEmbed true SysState.empty "u" sampleInsightMsg "" 0
    Metadata.empty

/-- The record that turn stores. -/
def c3Record : MemoryRecord :=
  mkRecord 0 (combineContent sampleInsightMsg "") [1] "u" 0 Metadata.empty
    (evaluate (combineContent sampleInsightMsg "") Metadata.empty)

/-- C3 witness: the MemoryRecord stored for an insight-heavy turn (component
sum 1.1 before the clamp) has importance score inside [0,1]. -/
lemma c3Record_mem : c3Record ∈ c3State.longTerm := by
  have h := record_turn_longTerm_store 5 constEmbed SysState.empty "u"
    sampleInsightMsg "" 0 Metadata.empty [1] evaluate_sample_store rfl
  rw [c3State, h]
  exact List.mem_cons_self _ _

theorem c3_scores_in_unit_interval_witness :
    c3Record ∈ c3State.longTerm
    ∧ (c3Record ∈ SysState.empty.longTerm
        ∨ (0 ≤ c3Record.importance_score ∧ c3Record.importance_score ≤ 1)) :=
  ⟨c3Record_mem,
    c3_scores_in_unit_interval.2.2 5 constEmbed true SysState.empty "u"
      sampleInsightMsg "" 0 Metadata.empty c3Record c3Record_mem⟩

/-- C1: `record_turn` appends the interaction to the short-term store
unconditionally; when the evaluation's overall importance is ≤ 0.5 no
long-term write occurs; and when it is > 0.5 (with healthy collaborators:
the embedding succeeds and the long-term store is reachable, as the spec's
failure policy carves out) exactly one MemoryRecord is created, whose
`memory_type` is the strategy that produced the maximum score and whose
`importance_score` equals the overall importance. -/
theorem c1_record_turn_flow (cap : Nat) (embed : String → Option (List ℚ))
    (ltOk : Bool) (s : SysState) (uid msg resp : String) (ts : Nat)
    (meta : Metadata) :
    stLookup (record_turn cap embed ltOk s uid msg resp ts meta).shortTerm uid
      = ((⟨uid, msg, resp, ts, meta⟩ : Interaction)
          :: stLookup s.shortTerm uid).take cap
    ∧ ((evaluate (combineContent msg resp) meta).overall_importance ≤ 1/2 →
        (record_turn cap embed ltOk s uid msg resp ts meta).longTerm
          = s.longTerm)
    ∧ (∀ v : List ℚ,
        1/2 < (evaluate (combineContent msg resp) meta).overall_importance →
        embed (combineContent msg resp) = some v → ltOk = true →
        (record_turn cap embed ltOk s uid msg resp ts meta).longTerm
          = mkRecord s.nextId (combineContent msg resp) v uid ts meta
              (evaluate (combineContent msg resp) meta) :: s.longTerm
          ∧ (mkRecord s.nextId (combineContent msg resp) v uid ts meta
              (evaluate (combineContent msg resp) meta)).memory_type
              = (evaluate (combineContent msg resp) meta).best_strategy
          ∧ (mkRecord s.nextId (combineContent msg resp) v uid ts meta
              (evaluate (combineContent msg resp) meta)).importance_score
              = (evaluate (combineContent msg resp) meta).overall_importance) := by
  refine ⟨?_, ?_, ?_⟩
  · rw [record_turn_shortTerm, stLookup_stAppend]
  · intro hle
    apply record_turn_longTerm_not_store
    rw [evaluate_store]
    simp only [storeThreshold, decide_eq_false_iff_not, not_lt]
    exact hle
  · intro v hgt hv hlt
    subst hlt
    refine ⟨?_, rfl, rfl⟩
    apply record_turn_longTerm_store cap embed s uid msg resp ts meta v ?_ hv
    rw [evaluate_store]
    simp only [storeThreshold, decide_eq_true_eq]
    exact hgt

/-- C1 witness: recording an insight-heavy turn against empty stores with a
working embedder and reachable long-term store creates exactly the expected
MemoryRecord. -/
theorem c1_record_turn_flow_witness :
    (1/2 : ℚ) < (evaluate (combineContent sampleInsightMsg "")
        Metadata.empty).overall_importance
    ∧ (record_turn 5 constEmbed true SysState.empty "u" sampleInsightMsg ""
        0 Metadata.empty).longTerm
      = mkRecord SysState.empty.nextId (combineContent sampleInsightMsg "")
          [1] "u" 0 Metadata.empty
          (evaluate (combineContent sampleInsightMsg "") Metadata.empty)
        :: SysState.empty.longTerm := by
  have hgt : (1/2 : ℚ) < (evaluate (combineContent sampleInsightMsg "")
      Metadata.empty).overall_importance := by
    rw [evaluate_sample_overall]
    norm_num
  exact ⟨hgt,
    ((c1_record_turn_flow 5 constEmbed true SysState.empty "u"
      sampleInsightMsg "" 0 Metadata.empty).2.2 [1] hgt rfl rfl).1⟩

/-- C5: for any per-user window cap, appending cap+1 interactions for one
user (starting from a state holding nothing for that user) makes
`recent(user, cap+1)` return exactly the cap most recent interactions, most
recent first — the oldest appended interaction is evicted; and for every
limit, `recent` returns at most limit entries. -/
theorem c5_short_term_window (cap : Nat) (s0 : STStore) (uid : String)
    (l : List Interaction) (h0 : stLookup s0 uid = [])
    (hlen : l.length = cap + 1) :
    stRecent (appendMany cap s0 uid l) uid (cap + 1) = l.reverse.take cap
    ∧ (stRecent (appendMany cap s0 uid l) uid (cap + 1)).length = cap
    ∧ ∀ (s : STStore) (uid' : String) (limit : Nat),
        (stRecent s uid' limit).length ≤ limit := by
  have hlook : stLookup (appendMany cap s0 uid l) uid = l.reverse.take cap := by
    rw [appendMany_lookup cap uid l s0 (by rw [h0]; exact Nat.zero_le cap),
      h0, List.append_nil]
  have hmain : stRecent (appendMany cap s0 uid l) uid (cap + 1)
      = l.reverse.take cap := by
    rw [stRecent, hlook, List.take_take, min_eq_right (Nat.le_succ cap)]
  refine ⟨hmain, ?_, ?_⟩
  · rw [hmain, List.length_take, List.length_reverse, hlen]
    exact min_eq_left (Nat.le_succ cap)
  · intro s uid' limit
    rw [stRecent, List.length_take]
    exact min_le_left ..

/-- C5 witness: with cap 2, appending three interactions leaves exactly the
two most recent, newest first. -/
theorem c5_short_term_window_witness :
    stLookup ([] : STStore) "u" = []
    ∧ [mkI 1, mkI 2, mkI 3].length = 2 + 1
    ∧ stRecent (appendMany 2 [] "u" [mkI 1, mkI 2, mkI 3]) "u" 3
        = [mkI 3, mkI 2] := by
  refine ⟨rfl, rfl, ?_⟩
  have h := c5_short_term_window 2 [] "u" [mkI 1, mkI 2, mkI 3] rfl rfl
  rw [h.1]
  rfl

/-- C7: querying a user with no stored memories yields empty results, never
an error: `recent` returns the empty sequence for a user the short-term
store does not know, and `context_for` for a user with zero history returns
a bundle whose three labeled sections are all empty. -/
theorem c7_unknown_user_empty (embed : String → Option (List ℚ))
    (simSearch : List MemoryRecord → List ℚ → String → Nat → List MemoryRecord)
    (ltOk : Bool) (s : SysState) (uid : String) (limit : Nat)
    (hunknown : ∀ p ∈ s.shortTerm, p.1 ≠ uid)
    (hlt : ∀ r ∈ s.longTerm, r.user_id ≠ uid) :
    stRecent s.shortTerm uid limit = []
    ∧ context_for embed simSearch ltOk s uid = ⟨[], [], []⟩ := by
  have hlook : stLookup s.shortTerm uid = [] :=
    stLookup_eq_nil_of_unknown s.shortTerm uid hunknown
  have hrecent : ∀ n : Nat, stRecent s.shortTerm uid n = [] := by
    intro n
    rw [stRecent, hlook, List.take_nil]
  refine ⟨hrecent limit, ?_⟩
  have hfilter : s.longTerm.filter (fun r => r.user_id == uid) = [] := by
    rw [List.filter_eq_nil_iff]
    intro r hr
    simpa using hlt r hr
  unfold context_for
  rw [hrecent 5]
  cases ltOk with
  | false => rfl
  | true =>
      simp only [byUser, hfilter, List.head?_nil]
      rfl

/-- C7 witness: a store holding data only for user "v" yields empty results
for user "u". -/
theorem c7_unknown_user_empty_witness :
    stRecent ([("v", [mkI 1])] : STStore) "u" 4 = []
    ∧ context_for constEmbed noSim true ⟨[("v", [mkI 1])], [], 0⟩ "u"
        = ⟨[], [], []⟩ := by
  have h := c7_unknown_user_empty constEmbed noSim true
    ⟨[("v", [mkI 1])], [], 0⟩ "u" 4 (by decide)
    (by intro r hr; exact absurd hr (List.not_mem_nil r))
  exact h

/-- C8: collaborator failures never fail `record_turn`: with a failing
embedder or an unreachable long-term store the short-term append still
happens and the long-term store is untouched; every record present after the
call either predates it or carries the embedding the embedder successfully
produced (no record is stored without a valid embedding); and `context_for`
with an unreachable long-term store returns the short-term section and empty
long-term sections instead of failing. -/
theorem c8_failure_containment (cap : Nat)
    (embed : String → Option (List ℚ)) (ltOk : Bool) (s : SysState)
    (uid msg resp : String) (ts : Nat) (meta : Metadata)
    (simSearch : List MemoryRecord → List ℚ → String → Nat → List MemoryRecord) :
    (embed (combineContent msg resp) = none →
        (record_turn cap embed ltOk s uid msg resp ts meta).longTerm
          = s.longTerm)
    ∧ (ltOk = false →
        (record_turn cap embed ltOk s uid msg resp ts meta).longTerm
          = s.longTerm)
    ∧ stLookup (record_turn cap embed ltOk s uid msg resp ts meta).shortTerm
        uid
      = ((⟨uid, msg, resp, ts, meta⟩ : Interaction)
          :: stLookup s.shortTerm uid).take cap
    ∧ (∀ r ∈ (record_turn cap embed ltOk s uid msg resp ts meta).longTerm,
        r ∈ s.longTerm
          ∨ embed (combineContent msg resp) = some r.embedding)
    ∧ (∀ uid' : String,
        context_for embed simSearch false s uid'
          = ⟨stRecent s.shortTerm uid' 5, [], []⟩) := by
  refine ⟨?_, ?_, ?_, ?_, ?_⟩
  · intro hv
    exact record_turn_longTerm_no_embed cap embed ltOk s uid msg resp ts
      meta hv
  · intro hlt
    subst hlt
    exact record_turn_longTerm_no_lt cap embed s uid msg resp ts meta
  · rw [record_turn_shortTerm, stLookup_stAppend]
  · intro r hr
    cases hss : (evaluate (combineContent msg resp) meta).should_store_long_term with
    | false =>
        rw [record_turn_longTerm_not_store cap embed ltOk s uid msg resp ts
          meta hss] at hr
        exact Or.inl hr
    | true =>
        cases hv : embed (combineContent msg resp) with
        | none =>
            rw [record_turn_longTerm_no_embed cap embed ltOk s uid msg resp
              ts meta hv] at hr
            exact Or.inl hr
        | some v =>
            cases ltOk with
            | false =>
                rw [record_turn_longTerm_no_lt cap embed s uid msg resp ts
                  meta] at hr
                exact Or.inl hr
            | true =>
                rw [record_turn_longTerm_store cap embed s uid msg resp ts
                  meta v hss hv] at hr
                rcases List.mem_cons.mp hr with h | h
                · subst h
                  exact Or.inr rfl
                · exact Or.inl h
  · intro uid'
    rfl

/-- The spec's §8 example content. -/
def c4Content : String :=
  "I prefer conservative investments and my risk tolerance is low"

lemma conversationScore_c4_shape (c : String)
    (h1 : matchCount financialKeywords c = 2)
    (h2 : matchCount insightKeywords c = 0)
    (h3 : ¬ (200 < c.length)) :
    conversationScore c Metadata.empty = 2/5 := by
  unfold conversationScore
  rw [h1, h2]
  norm_num [Metadata.empty, h3, min_def]

lemma insightScore_c4_shape (c : String)
    (h1 : matchCount insightPatterns c = 1)
    (h2 : anyMatch preferencePatterns c = true)
    (h3 : anyMatch learningPatterns c = false) :
    insightScore c Metadata.empty = 1/2 := by
  unfold insightScore
  rw [h1, h2, h3]
  norm_num [Metadata.empty, min_def]

lemma riskScore_c4_shape (c : String)
    (h1 : matchCount riskKeywords c = 1)
    (h2 : anyMatch warningTerms c = false) :
    riskScore c Metadata.empty = 1/4 := by
  unfold riskScore
  rw [h1, h2]
  norm_num [Metadata.empty, min_def]

lemma evaluate_c4_shape (c : String)
    (hc : conversationScore c Metadata.empty = 2/5)
    (hi : insightScore c Metadata.empty = 1/2)
    (hr : riskScore c Metadata.empty = 1/4) :
    evaluate c Metadata.empty
      = ⟨[(.conversation, 2/5), (.insight, 1/2), (.risk, 1/4)], .insight,
          1/2, false⟩ := by
  simp only [evaluate, hc, hi, hr, pickBest, List.foldl_cons, List.foldl_nil]
  rw [if_pos (by norm_num : ((StrategyName.conversation, (2:ℚ)/5)).2
    < ((StrategyName.insight, (1:ℚ)/2)).2)]
  rw [if_neg (by norm_num : ¬ ((StrategyName.insight, (1:ℚ)/2)).2
    < ((StrategyName.risk, (1:ℚ)/4)).2)]
  have hss : decide (storeThreshold < ((StrategyName.insight, (1:ℚ)/2)).2)
      = false := by
    simp [storeThreshold]
  rw [hss]

lemma evaluate_c4 :
    evaluate c4Content Metadata.empty
      = ⟨[(.conversation, 2/5), (.insight, 1/2), (.risk, 1/4)], .insight,
          1/2, false⟩ :=
  evaluate_c4_shape c4Content
    (conversationScore_c4_shape c4Content (by decide) (by decide) (by decide))
    (insightScore_c4_shape c4Content (by decide) (by decide) (by decide))
    (riskScore_c4_shape c4Content (by decide) (by decide))

lemma evaluate_c4_combined :
    evaluate (combineContent c4Content "") Metadata.empty
      = ⟨[(.conversation, 2/5), (.insight, 1/2), (.risk, 1/4)], .insight,
          1/2, false⟩ :=
  evaluate_c4_shape (combineContent c4Content "")
    (conversationScore_c4_shape (combineContent c4Content "") (by decide)
      (by decide) (by decide))
    (insightScore_c4_shape (combineContent c4Content "") (by decide)
      (by decide) (by decide))
    (riskScore_c4_shape (combineContent c4Content "") (by decide) (by decide))

/-- C4 counterexample: for the spec's example content with empty metadata
the per-strategy scores are conversation 0.4, insight 0.5, risk 0.25 — no
strategy's combined score exceeds 0.5 (the maximum equals the threshold),
`should_store_long_term` is false, and `record_turn` on this content
performs no long-term write. -/
theorem c4_counterexample :
    (evaluate c4Content Metadata.empty).per_strategy_scores
      = [(.conversation, 2/5), (.insight, 1/2), (.risk, 1/4)]
    ∧ (evaluate c4Content Metadata.empty).overall_importance = 1/2
    ∧ (evaluate c4Content Metadata.empty).should_store_long_term = false
    ∧ (record_turn 5 constEmbed true SysState.empty "u1" c4Content "" 0
        Metadata.empty).longTerm = [] := by
  refine ⟨by rw [evaluate_c4], by rw [evaluate_c4], by rw [evaluate_c4], ?_⟩
  exact record_turn_longTerm_not_store 5 constEmbed true SysState.empty "u1"
    c4Content "" 0 Metadata.empty (by rw [evaluate_c4_combined])

/-- C4 amended: the per-strategy scores on the example content are exactly
conversation 0.4, insight 0.5 and risk 0.25; the best strategy is insight
with overall importance 0.5, which does not exceed the 0.5 threshold, so
`record_turn` on this content performs no long-term write and only the
short-term append occurs. -/
theorem c4_exact_scores_no_write :
    conversationScore c4Content Metadata.empty = 2/5
    ∧ insightScore c4Content Metadata.empty = 1/2
    ∧ riskScore c4Content Metadata.empty = 1/4
    ∧ (evaluate c4Content Metadata.empty).best_strategy = .insight
    ∧ (evaluate c4Content Metadata.empty).overall_importance = 1/2
    ∧ ¬ ((1/2 : ℚ)
        < (evaluate c4Content Metadata.empty).overall_importance)
    ∧ (record_turn 5 constEmbed true SysState.empty "u1" c4Content "" 0
        Metadata.empty).longTerm = []
    ∧ stLookup (record_turn 5 constEmbed true SysState.empty "u1" c4Content
        "" 0 Metadata.empty).shortTerm "u1"
      = [(⟨"u1", c4Content, "", 0, Metadata.empty⟩ : Interaction)] := by
  refine ⟨conversationScore_c4_shape c4Content (by decide) (by decide)
      (by decide),
    insightScore_c4_shape c4Content (by decide) (by decide) (by decide),
    riskScore_c4_shape c4Content (by decide) (by decide),
    by rw [evaluate_c4], by rw [evaluate_c4],
    by rw [evaluate_c4]; norm_num, ?_, ?_⟩
  · exact record_turn_longTerm_not_store 5 constEmbed true SysState.empty
      "u1" c4Content "" 0 Metadata.empty (by rw [evaluate_c4_combined])
  · rw [record_turn_shortTerm, stLookup_stAppend]
    rfl

/-- C8 witness: with a failing embedder, recording the insight-heavy turn
(whose importance exceeds the threshold) writes nothing to the long-term
store, and a context request with the long-term store down still returns the
short-term section. -/
theorem c8_failure_containment_witness :
    failEmbed (combineContent sampleInsightMsg "") = none
    ∧ (record_turn 5 failEmbed true SysState.empty "u" sampleInsightMsg ""
        0 Metadata.empty).longTerm = SysState.empty.longTerm
    ∧ context_for failEmbed noSim false SysState.empty "u"
        = ⟨stRecent SysState.empty.shortTerm "u" 5, [], []⟩ := by
  have h := c8_failure_containment 5 failEmbed true SysState.empty "u"
    sampleInsightMsg "" 0 Metadata.empty noSim
  exact ⟨rfl, h.1 rfl, h.2.2.2.2 "u"⟩

end FinMemory

namespace FinFrontend

lemma mk_eq_empty_iff (l : List Char) : String.mk l = "" ↔ l = [] := by
  rw [String.ext_iff]

lemma jsTrim_eq_empty_iff (name : String) :
    jsTrim name = "" ↔ name.toList.all isJsWhitespace = true := by
  unfold jsTrim
  rw [mk_eq_empty_iff, List.reverse_eq_nil_iff, List.dropWhile_eq_nil_iff,
    List.all_eq_true]
  constructor
  · intro h a ha
    have hsplit := List.takeWhile_append_dropWhile
      (p := isJsWhitespace) (l := name.toList)
    rw [← hsplit] at ha
    rcases List.mem_append.mp ha with h1 | h1
    · exact List.mem_takeWhile_imp h1
    · exact h a (List.mem_reverse.mpr h1)
  · intro h a ha
    exact h a ((List.dropWhile_sublist _).subset (List.mem_reverse.mp ha))

lemma sanitizeFileName_dash (name : String)
    (h : name.toList.all isJsWhitespace = true) :
    sanitizeFileName name = "-" := by
  unfold sanitizeFileName
  rw [if_pos (Or.inr ((jsTrim_eq_empty_iff name).mpr h))]

lemma sanitizeFileName_map (name : String)
    (h : name.toList.all isJsWhitespace = false) :
    sanitizeFileName name
      = String.mk (name.toList.map
          (fun c => if isAllowedChar c then c else '_')) := by
  unfold sanitizeFileName
  rw [if_neg]
  intro hcon
  rcases hcon with h1 | h1
  · rw [h1] at h
    simp at h
  · rw [(jsTrim_eq_empty_iff name).mp h1] at h
    cases h

/-- C9 amended: `sanitizeFileName` is total and deterministic; it returns
"-" whenever the name is empty or consists only of whitespace, and on every
other input it returns a string of the same length in which each character
outside [a-zA-Z0-9.-] is replaced by an underscore, so the result contains
only ASCII letters, digits, dots, hyphens and underscores.  (The dash can
also arise from the replacement branch, e.g. on input "-", so "-" is not
returned only on empty/whitespace input.) -/
theorem c9_sanitize_behavior (name : String) :
    (name.toList.all isJsWhitespace = true → sanitizeFileName name = "-")
    ∧ (name.toList.all isJsWhitespace = false →
        (sanitizeFileName name).toList
          = name.toList.map (fun c => if isAllowedChar c then c else '_')
        ∧ (sanitizeFileName name).length = name.length
        ∧ ∀ c ∈ (sanitizeFileName name).toList,
            isAllowedChar c = true ∨ c = '_') := by
  refine ⟨sanitizeFileName_dash name, fun h => ?_⟩
  have hm := sanitizeFileName_map name h
  refine ⟨by rw [hm]; rfl, ?_, ?_⟩
  · rw [hm]
    exact List.length_map ..
  · intro c hc
    rw [hm] at hc
    rcases List.mem_map.mp hc with ⟨a, ha, rfl⟩
    by_cases hA : isAllowedChar a = true
    · rw [if_pos hA]
      exact Or.inl hA
    · rw [if_neg hA]
      exact Or.inr rfl

/-- C9 counterexample: `sanitizeFileName "-"` returns "-" although "-" is
neither empty nor whitespace-only, so the function does not return "-"
exactly on empty or whitespace-only input. -/
theorem c9_counterexample :
    sanitizeFileName "-" = "-"
    ∧ ("-" : String) ≠ ""
    ∧ ("-" : String).toList.all isJsWhitespace = false := by
  refine ⟨?_, by decide, by decide⟩
  rw [sanitizeFileName_map "-" (by decide)]
  rfl

/-- C9 witness: the amended theorem applied to the concrete name "a b!". -/
theorem c9_sanitize_behavior_witness :
    ("a b!".toList.all isJsWhitespace = false)
    ∧ (sanitizeFileName "a b!").toList
        = "a b!".toList.map (fun c => if isAllowedChar c then c else '_') :=
  ⟨by decide, ((c9_sanitize_behavior "a b!").2 (by decide)).1⟩

/-- C10: `sendMessage` appends the user's message for every network outcome
(so prior messages plus the new user message are always a prefix of the
result, unremoved and unaltered), and when the request throws, the response
status is not ok, or the body carries no `bot_response`, the resulting list
is exactly the previous list plus that user message — no assistant message
is appended. -/
theorem c10_sendMessage_resilient (now : Nat) (prev : List Msg)
    (message : String) (outcome : FetchOutcome) :
    (sendMessage now prev message outcome).take (prev.length + 1)
      = prev ++ [⟨toString now, message, .user⟩]
    ∧ ((outcome = .networkError ∨ outcome = .httpError
        ∨ outcome = .success none) →
        sendMessage now prev message outcome
          = prev ++ [⟨toString now, message, .user⟩]) := by
  have hlen : (prev ++ [(⟨toString now, message, .user⟩ : Msg)]).length
      = prev.length + 1 := by
    rw [List.length_append, List.length_singleton]
  have htake : (prev ++ [(⟨toString now, message, .user⟩ : Msg)]).take
      (prev.length + 1) = prev ++ [⟨toString now, message, .user⟩] :=
    List.take_of_length_le (le_of_eq hlen)
  constructor
  · cases outcome with
    | networkError => exact htake
    | httpError => exact htake
    | success bot =>
        cases bot with
        | none => exact htake
        | some s =>
            by_cases hs : s = ""
            · simp only [sendMessage, if_pos hs]
              exact htake
            · simp only [sendMessage, if_neg hs]
              exact List.take_left' hlen
  · intro h
    rcases h with h | h | h <;> rw [h] <;> rfl

/-- C10 witness: a non-ok response leaves exactly the user message
appended. -/
theorem c10_sendMessage_resilient_witness :
    (FetchOutcome.httpError = FetchOutcome.networkError
      ∨ FetchOutcome.httpError = FetchOutcome.httpError
      ∨ FetchOutcome.httpError = FetchOutcome.success none)
    ∧ sendMessage 7 [] "hi" .httpError
        = [] ++ [⟨toString 7, "hi", .user⟩] :=
  ⟨Or.inr (Or.inl rfl),
    (c10_sendMessage_resilient 7 [] "hi" .httpError).2 (Or.inr (Or.inl rfl))⟩

end FinFrontend
